import Mathlib

/-!
Verification of the diagram layout validator/repair engine of the
creator-mcp-server repository (`src/mcpServer.ts`).

The embedding below translates the pure geometric core of the server —
`calculateShapeSize`, `shapesOverlap` and `validateAndFixDiagram`
(lines 102–335 of `src/mcpServer.ts`) — into Lean.  JavaScript numbers are
modelled as rationals (`ℚ`): every arithmetic operation the code performs
(+, -, *, /2, abs, min, max, comparisons) is exact on rationals, and the
inputs of interest are rational-valued.  The in-place mutation of the
shapes array inside the overlap-resolution loop is modelled by structural
recursion that threads the updated list exactly as the nested `for` loops
thread the mutated array.
-/

unseal Rat.add Rat.sub Rat.mul Rat.inv

namespace CreatorMcp

/-- A diagram shape (interface `DiagramShape`, mcpServer.ts lines 57–68).
`type` is the shape kind (`rectangle`/`diamond`/`ellipse`); `none` models
an absent (`undefined`) field.  The presentation attributes
`fill`/`stroke`/`textFill` are opaque pass-through values. -/
structure DiagramShape where
  id : String
  x : ℚ
  y : ℚ
  width : ℚ
  height : ℚ
  type : Option String := none
  text : String
  fill : Option String := none
  stroke : Option String := none
  textFill : Option String := none
deriving DecidableEq, Repr, Inhabited

/-- A connection between two shapes (interface `DiagramConnection`,
mcpServer.ts lines 70–76).  `from` is a Lean keyword, hence `fromId`/`toId`.
A magnet value of `none` models an absent (`undefined`) field. -/
structure DiagramConnection where
  fromId : String
  toId : String
  fromMagnet : Option String := none
  toMagnet : Option String := none
  label : Option String := none
deriving DecidableEq, Repr, Inhabited

/-- A section, i.e. the enclosing container (interface `DiagramSection`,
mcpServer.ts lines 78–84). -/
structure DiagramSection where
  name : String
  x : ℚ
  y : ℚ
  width : ℚ
  height : ℚ
deriving DecidableEq, Repr, Inhabited

/-- A complete diagram (interface `Diagram`, mcpServer.ts lines 86–90). -/
structure Diagram where
  sections : List DiagramSection
  shapes : List DiagramShape
  connections : List DiagramConnection
deriving DecidableEq, Repr, Inhabited

/-- `const MIN_GAP = 60` (mcpServer.ts line 102). -/
def MIN_GAP : ℚ := 60

/-- `const ARROW_LANE_WIDTH = 30` (mcpServer.ts line 103). -/
def ARROW_LANE_WIDTH : ℚ := 30

/-- `const PADDING = 100` (mcpServer.ts line 104). -/
def PADDING : ℚ := 100

/-- `calculateShapeSize` (mcpServer.ts lines 106–132): minimum
(width, height) for a label and kind; the JS default parameter
`type = 'rectangle'` is the Lean default argument. -/
def calculateShapeSize (text : String) (type : String := "rectangle") :
    ℚ × ℚ :=
  let CHAR_WIDTH : ℚ := 8
  let H_PADDING : ℚ := 30
  let effectiveLength : ℚ := min (text.length : ℚ) 20
  let textWidth : ℚ := effectiveLength * CHAR_WIDTH
  if type = "diamond" then
    (max 140 (textWidth + H_PADDING), max 80 60)
  else if type = "ellipse" then
    (max 120 (textWidth + H_PADDING), max 50 45)
  else
    (max 140 (textWidth + H_PADDING), max 50 45)

/-- `shapesOverlap` (mcpServer.ts lines 134–141): two shapes overlap with
gap `gap` unless separated on some axis. -/
def shapesOverlap (a b : DiagramShape) (gap : ℚ := MIN_GAP) : Bool :=
  !(a.x + a.width + gap < b.x ||
    b.x + b.width + gap < a.x ||
    a.y + a.height + gap < b.y ||
    b.y + b.height + gap < a.y)

/-- Step 1 of `validateAndFixDiagram` (mcpServer.ts lines 153–157): grow a
shape's width/height to the policy minimum for its text and kind.  The JS
guard `shape.width || 0` differs from `shape.width` only for `NaN`, which
has no counterpart in `ℚ`. -/
def sizeShape (s : DiagramShape) : DiagramShape :=
  let requiredSize := calculateShapeSize s.text (s.type.getD "rectangle")
  { s with width := max s.width requiredSize.1,
           height := max s.height requiredSize.2 }

/-- The body of the overlapping-pair repair (mcpServer.ts lines 174–204):
push two overlapping shapes apart along the axis of least overlap, each
moving half the required delta plus a bias of 10. -/
def pushApart (a b : DiagramShape) : DiagramShape × DiagramShape :=
  let aCenterX := a.x + a.width / 2
  let aCenterY := a.y + a.height / 2
  let bCenterX := b.x + b.width / 2
  let bCenterY := b.y + b.height / 2
  let overlapX := (a.width / 2 + b.width / 2 + MIN_GAP) - |aCenterX - bCenterX|
  let overlapY := (a.height / 2 + b.height / 2 + MIN_GAP) - |aCenterY - bCenterY|
  if overlapX < overlapY then
    let pushX := overlapX / 2 + 10
    if aCenterX < bCenterX then
      ({ a with x := a.x - pushX }, { b with x := b.x + pushX })
    else
      ({ a with x := a.x + pushX }, { b with x := b.x - pushX })
  else
    let pushY := overlapY / 2 + 10
    if aCenterY < bCenterY then
      ({ a with y := a.y - pushY }, { b with y := b.y + pushY })
    else
      ({ a with y := a.y + pushY }, { b with y := b.y - pushY })

/-- The inner `for j` loop of the resolver (mcpServer.ts lines 167–206)
for a fixed index `i`: the shape at `i` (here `a`) is checked against each
later shape in turn; both are updated in place when they overlap, and the
updated `a` is used for subsequent comparisons.  Returns the final `a`,
the updated tail, and whether any overlap was found. -/
def resolveAgainst (a : DiagramShape) :
    List DiagramShape → DiagramShape × List DiagramShape × Bool
  | [] => (a, [], false)
  | b :: rest =>
    if shapesOverlap a b MIN_GAP then
      let p := pushApart a b
      let r := resolveAgainst p.1 rest
      (r.1, p.2 :: r.2.1, true)
    else
      let r := resolveAgainst a rest
      (r.1, b :: r.2.1, r.2.2)

/-- One full pass of the outer `for i` loop (mcpServer.ts lines 166–207),
with explicit fuel for structural recursion: each shape is resolved
against all later shapes, the updated tail (which `resolveAgainst` keeps
the same length) feeding the next iteration.  Returns the updated list
and the pass's `hasOverlap` flag. -/
def onePassAux : Nat → List DiagramShape → List DiagramShape × Bool
  | _, [] => ([], false)
  | 0, a :: rest => (a :: rest, false)
  | fuel + 1, a :: rest =>
    let r := resolveAgainst a rest
    let r2 := onePassAux fuel r.2.1
    (r.1 :: r2.1, r.2.2 || r2.2)

/-- One full pass over the whole shape list: the fuel `shapes.length`
exactly covers the outer loop's iterations. -/
def onePass (shapes : List DiagramShape) : List DiagramShape × Bool :=
  onePassAux shapes.length shapes

/-- The `while (hasOverlap && iterations < 100)` loop (mcpServer.ts lines
160–208), with `fuel` the number of passes still allowed.  Returns the
final shape list together with the final `hasOverlap` flag (`true` exactly
when the iteration cap was exhausted with overlaps remaining). -/
def fixOverlapsLoop : Nat → List DiagramShape → List DiagramShape × Bool
  | 0, shapes => (shapes, true)
  | fuel + 1, shapes =>
    let p := onePass shapes
    if p.2 then fixOverlapsLoop fuel p.1 else (p.1, false)

/-- `new Map(fixed.shapes.map(s => [s.id, s]))` followed by `.get(id)`
(mcpServer.ts lines 222, 226–227): a JS `Map` built from entries lets the
last entry for a key win. -/
def shapeById (shapes : List DiagramShape) (id : String) :
    Option DiagramShape :=
  shapes.foldl (fun acc s => if s.id = id then some s else acc) none

/-- The ideal (from, to) magnet pair from the relative position of the two
resolved shapes' centers (mcpServer.ts lines 232–262). -/
def idealMagnets (fromShape toShape : DiagramShape) : String × String :=
  let dx := (toShape.x + toShape.width / 2) - (fromShape.x + fromShape.width / 2)
  let dy := (toShape.y + toShape.height / 2) - (fromShape.y + fromShape.height / 2)
  if |dy| > |dx| then
    if dy > 0 then ("BOTTOM", "TOP") else ("TOP", "BOTTOM")
  else
    if dx > 0 then ("RIGHT", "LEFT") else ("LEFT", "RIGHT")

/-- JS truthiness test `conn.fromMagnet && conn.fromMagnet !== 'AUTO'`
(mcpServer.ts lines 265–266): a magnet counts as explicitly provided when
present, non-empty and not the sentinel `'AUTO'`. -/
def magnetProvided : Option String → Bool
  | none => false
  | some m => !(m = "") && !(m = "AUTO")

/-- `(conn.fromMagnet && conn.fromMagnet !== 'AUTO') ? conn.fromMagnet :
idealFromMagnet` (mcpServer.ts lines 265–266). -/
def chooseMagnet (provided : Option String) (ideal : String) : String :=
  match provided with
  | none => ideal
  | some m => if !(m = "") && !(m = "AUTO") then m else ideal

/-- Magnet assignment for one connection (mcpServer.ts lines 225–269):
connections whose endpoints do not both resolve are skipped unchanged
(`continue`, line 229); otherwise both magnets become concrete. -/
def assignMagnets (shapes : List DiagramShape) (conn : DiagramConnection) :
    DiagramConnection :=
  match shapeById shapes conn.fromId, shapeById shapes conn.toId with
  | some fromShape, some toShape =>
    let ideal := idealMagnets fromShape toShape
    { conn with fromMagnet := some (chooseMagnet conn.fromMagnet ideal.1),
                toMagnet := some (chooseMagnet conn.toMagnet ideal.2) }
  | _, _ => conn

/-- Whether both endpoints of a connection resolve against the shape list
(the guard at mcpServer.ts line 229). -/
def bothResolve (shapes : List DiagramShape) (conn : DiagramConnection) :
    Bool :=
  (shapeById shapes conn.fromId).isSome && (shapeById shapes conn.toId).isSome

/-- The per-shape per-side connection count read by the congestion pass
(mcpServer.ts lines 212–218, 271–275, 286): incoming plus outgoing
connections that were processed (both endpoints resolved) and whose final
magnet at the relevant endpoint is `side`.  `conns` is the
post-assignment connection list, so the counts recorded during the magnet
loop coincide with this recount. -/
def sideLoad (shapes : List DiagramShape) (conns : List DiagramConnection)
    (id side : String) : Nat :=
  conns.countP
    (fun c => bothResolve shapes c && c.toId == id && c.toMagnet == some side)
  + conns.countP
    (fun c => bothResolve shapes c && c.fromId == id && c.fromMagnet == some side)

/-- One side of the congestion pass (mcpServer.ts lines 285–296): a side
carrying more than two connections grows the perpendicular dimension by
`(count − 2) × ARROW_LANE_WIDTH`. -/
def growSide (t : Nat) (side : String) (s : DiagramShape) : DiagramShape :=
  if 2 < t then
    if side = "TOP" ∨ side = "BOTTOM" then
      { s with width := max s.width (s.width + ((t - 2 : ℕ) : ℚ) * ARROW_LANE_WIDTH) }
    else
      { s with height := max s.height (s.height + ((t - 2 : ℕ) : ℚ) * ARROW_LANE_WIDTH) }
  else s

/-- The congestion pass for one shape (mcpServer.ts lines 279–297): the
four sides are visited in the order TOP, BOTTOM, LEFT, RIGHT, each step
seeing the growth of the previous ones, with the side counts fixed. -/
def growShape (shapes : List DiagramShape) (conns : List DiagramConnection)
    (s : DiagramShape) : DiagramShape :=
  let s1 := growSide (sideLoad shapes conns s.id "TOP") "TOP" s
  let s2 := growSide (sideLoad shapes conns s.id "BOTTOM") "BOTTOM" s1
  let s3 := growSide (sideLoad shapes conns s.id "LEFT") "LEFT" s2
  growSide (sideLoad shapes conns s.id "RIGHT") "RIGHT" s3

/-- Section synthesis (mcpServer.ts lines 299–324): no section for an
empty shape list; otherwise one section covering all shapes with
`PADDING` on each side and floors 400 × 300.  Folding min/max from the
first shape's coordinates equals the JS fold from ±Infinity. -/
def computeSection (name : String) :
    List DiagramShape → List DiagramSection
  | [] => []
  | s :: rest =>
    let minX := rest.foldl (fun m t => min m t.x) s.x
    let minY := rest.foldl (fun m t => min m t.y) s.y
    let maxX := rest.foldl (fun m t => max m (t.x + t.width)) (s.x + s.width)
    let maxY := rest.foldl (fun m t => max m (t.y + t.height)) (s.y + s.height)
    [{ name := name,
       x := minX - PADDING,
       y := minY - PADDING,
       width := max ((maxX - minX) + PADDING * 2) 400,
       height := max ((maxY - minY) + PADDING * 2) 300 }]

/-- `fixed.sections[0]?.name || 'Diagram'` (mcpServer.ts line 147). -/
def savedSectionName (sections : List DiagramSection) : String :=
  match sections.head? with
  | some s => if s.name = "" then "Diagram" else s.name
  | none => "Diagram"

/-- The shape list after the sizing pass and the overlap-resolution loop
(steps 1–2 of `validateAndFixDiagram`). -/
def layoutShapes (d : Diagram) : List DiagramShape :=
  (fixOverlapsLoop 100 (d.shapes.map sizeShape)).1

/-- The final `hasOverlap` flag of the resolution loop: `false` exactly
when the loop exited because a full pass found no overlapping pair. -/
def layoutResidual (d : Diagram) : Bool :=
  (fixOverlapsLoop 100 (d.shapes.map sizeShape)).2

/-- The connection list after the magnet-assignment pass (step 3). -/
def assignedConnections (d : Diagram) : List DiagramConnection :=
  d.connections.map (assignMagnets (layoutShapes d))

/-- `validateAndFixDiagram` (mcpServer.ts lines 143–335): sizing pass,
overlap-resolution loop, magnet assignment, congestion growth, then the
single synthesized section.  The input is deep-cloned in JS; here the
pipeline is pure. -/
def validateAndFixDiagram (d : Diagram) : Diagram :=
  let sectionName := savedSectionName d.sections
  let shapes1 := layoutShapes d
  let conns := assignedConnections d
  let shapes2 := shapes1.map (growShape shapes1 conns)
  { sections := computeSection sectionName shapes2,
    shapes := shapes2,
    connections := conns }

/-- The fields of a shape other than its position: identity, dimensions,
label and kind.  The repair pipeline never reorders, inserts or removes
shapes, so comparing `core` images captures "everything but x/y is
preserved". -/
def core (s : DiagramShape) : String × ℚ × ℚ × String × Option String :=
  (s.id, s.width, s.height, s.text, s.type)

/-- A concrete magnet value: one of the four attachment sides. -/
def validMagnet (m : Option String) : Prop :=
  m = some "TOP" ∨ m = some "BOTTOM" ∨ m = some "LEFT" ∨ m = some "RIGHT"

/-- The data-model domain for an input magnet: absent, the `AUTO`
sentinel, or a concrete side. -/
def inputMagnetDomain (m : Option String) : Prop :=
  m = none ∨ m = some "AUTO" ∨ validMagnet m

/-- The shapes' centers are at distance at least `t` apart on the x-axis
or on the y-axis. -/
def centersSeparatedBy (a b : DiagramShape) (t : ℚ) : Prop :=
  t ≤ |(a.x + a.width / 2) - (b.x + b.width / 2)| ∨
  t ≤ |(a.y + a.height / 2) - (b.y + b.height / 2)|

/-- No two shapes (at distinct positions in the list) overlap under the
configured minimum gap. -/
def pairwiseNoOverlap (shapes : List DiagramShape) : Prop :=
  shapes.Pairwise (fun a b => shapesOverlap a b MIN_GAP = false)

instance (m : Option String) : Decidable (validMagnet m) :=
  inferInstanceAs (Decidable (_ ∨ _ ∨ _ ∨ _))

instance (m : Option String) : Decidable (inputMagnetDomain m) :=
  inferInstanceAs (Decidable (_ ∨ _ ∨ _))

instance (a b : DiagramShape) (t : ℚ) : Decidable (centersSeparatedBy a b t) :=
  inferInstanceAs (Decidable
    (t ≤ |(a.x + a.width / 2) - (b.x + b.width / 2)| ∨
     t ≤ |(a.y + a.height / 2) - (b.y + b.height / 2)|))

instance (shapes : List DiagramShape) : Decidable (pairwiseNoOverlap shapes) :=
  inferInstanceAs (Decidable (List.Pairwise _ _))

/-- A 140 × 50 rectangle at the origin with an empty label. -/
def shapeA : DiagramShape :=
  { id := "a", x := 0, y := 0, width := 140, height := 50, text := "" }

/-- A second copy of the same rectangle, stacked at the origin. -/
def shapeB0 : DiagramShape :=
  { id := "b", x := 0, y := 0, width := 140, height := 50, text := "" }

/-- A 140 × 50 rectangle at x = 261: one unit beyond the gap-60 reach of
`shapeA`, so the pair does not initially overlap. -/
def shapeB261 : DiagramShape :=
  { id := "b", x := 261, y := 0, width := 140, height := 50, text := "" }

/-- A 140 × 50 rectangle directly below `shapeA` at y = 200, outside the
gap-60 reach. -/
def shapeB200 : DiagramShape :=
  { id := "b", x := 0, y := 200, width := 140, height := 50, text := "" }

/-- A self-connection on `a` with both magnets explicitly `TOP`. -/
def connSelfTop : DiagramConnection :=
  { fromId := "a", toId := "a", fromMagnet := some "TOP", toMagnet := some "TOP" }

/-- The spec's scenario input: two shapes at identical position
`{x:0, y:0, w:140, h:50}`. -/
def exTwo : Diagram :=
  { sections := [], shapes := [shapeA, shapeB0], connections := [] }

/-- Two initially non-overlapping shapes plus three explicit-`TOP`
self-connections on the first: the congestion pass widens the first shape
into the second. -/
def exCongest : Diagram :=
  { sections := [],
    shapes := [shapeA, shapeB261],
    connections := [connSelfTop, connSelfTop, connSelfTop] }

/-- A fully valid single-shape diagram whose three explicit-`TOP`
self-connections trigger the congestion pass. -/
def exSelfLoad : Diagram :=
  { sections := [],
    shapes := [shapeA],
    connections := [connSelfTop, connSelfTop, connSelfTop] }

/-- `shapeA` directly above `shapeB200` with one auto connection. -/
def exVert : Diagram :=
  { sections := [],
    shapes := [shapeA, shapeB200],
    connections := [{ fromId := "a", toId := "b" }] }

/-- A single already-valid shape with no connections. -/
def exValidOne : Diagram :=
  { sections := [], shapes := [shapeA], connections := [] }

/-- A single shape together with an authored section named `Flow`. -/
def exNamed : Diagram :=
  { sections := [{ name := "Flow", x := 0, y := 0, width := 800, height := 600 }],
    shapes := [shapeA],
    connections := [] }

/-! ### Preservation lemmas for the overlap-resolution loop -/

theorem pushApart_core_fst (a b : DiagramShape) :
    core (pushApart a b).1 = core a := by
  simp only [pushApart]
  split_ifs <;> rfl

theorem pushApart_core_snd (a b : DiagramShape) :
    core (pushApart a b).2 = core b := by
  simp only [pushApart]
  split_ifs <;> rfl

theorem resolveAgainst_core (rest : List DiagramShape) (a : DiagramShape) :
    core (resolveAgainst a rest).1 = core a ∧
      ((resolveAgainst a rest).2.1).map core = rest.map core := by
  induction rest generalizing a with
  | nil => exact ⟨rfl, rfl⟩
  | cons b rest ih =>
    cases h : shapesOverlap a b MIN_GAP with
    | true =>
      have hrec := ih (pushApart a b).1
      simp [resolveAgainst, h, pushApart_core_fst, pushApart_core_snd,
        hrec.1, hrec.2]
    | false =>
      have hrec := ih a
      simp [resolveAgainst, h, hrec.1, hrec.2]

theorem resolveAgainst_length (rest : List DiagramShape) (a : DiagramShape) :
    (resolveAgainst a rest).2.1.length = rest.length := by
  have h := (resolveAgainst_core rest a).2
  have := congrArg List.length h
  simpa using this

theorem resolveAgainst_flag_false (rest : List DiagramShape) (a : DiagramShape)
    (h : (resolveAgainst a rest).2.2 = false) :
    (resolveAgainst a rest).1 = a ∧ (resolveAgainst a rest).2.1 = rest ∧
      ∀ b ∈ rest, shapesOverlap a b MIN_GAP = false := by
  induction rest generalizing a with
  | nil => exact ⟨rfl, rfl, by simp⟩
  | cons b rest ih =>
    cases hov : shapesOverlap a b MIN_GAP with
    | true => simp [resolveAgainst, hov] at h
    | false =>
      simp only [resolveAgainst, hov] at h ⊢
      simp at h ⊢
      obtain ⟨h1, h2, h3⟩ := ih a h
      exact ⟨h1, by rw [h2], hov, h3⟩

theorem resolveAgainst_of_no (rest : List DiagramShape) (a : DiagramShape)
    (h : ∀ b ∈ rest, shapesOverlap a b MIN_GAP = false) :
    resolveAgainst a rest = (a, rest, false) := by
  induction rest generalizing a with
  | nil => rfl
  | cons b rest ih =>
    have hov : shapesOverlap a b MIN_GAP = false := h b (List.mem_cons_self b rest)
    simp [resolveAgainst, hov,
      ih a (fun c hc => h c (List.mem_cons_of_mem b hc))]

theorem onePassAux_core (fuel : Nat) (l : List DiagramShape) :
    ((onePassAux fuel l).1).map core = l.map core := by
  induction fuel generalizing l with
  | zero => cases l <;> rfl
  | succ fuel ih =>
    cases l with
    | nil => rfl
    | cons a rest =>
      simp only [onePassAux, List.map_cons]
      rw [(resolveAgainst_core rest a).1,
        ih (resolveAgainst a rest).2.1, (resolveAgainst_core rest a).2]

theorem onePassAux_flag_false (fuel : Nat) :
    ∀ l : List DiagramShape, l.length ≤ fuel → (onePassAux fuel l).2 = false →
      (onePassAux fuel l).1 = l ∧ pairwiseNoOverlap l := by
  induction fuel with
  | zero =>
    intro l hl _
    cases l with
    | nil => exact ⟨rfl, List.Pairwise.nil⟩
    | cons a rest => simp at hl
  | succ fuel ih =>
    intro l hl hf
    cases l with
    | nil => exact ⟨rfl, List.Pairwise.nil⟩
    | cons a rest =>
      simp only [onePassAux, Bool.or_eq_false_iff] at hf
      obtain ⟨hf1, hf2⟩ := hf
      obtain ⟨ha, hrest, hno⟩ := resolveAgainst_flag_false rest a hf1
      rw [hrest] at hf2
      have hlen : rest.length ≤ fuel := by
        simpa using Nat.le_of_succ_le_succ (by simpa using hl)
      obtain ⟨hfix, hpw⟩ := ih rest hlen hf2
      constructor
      · simp only [onePassAux, hf1]
        rw [ha, hrest, hfix]
      · exact List.Pairwise.cons (fun b hb => hno b hb) hpw

theorem onePassAux_of_pairwise (fuel : Nat) :
    ∀ l : List DiagramShape, pairwiseNoOverlap l → onePassAux fuel l = (l, false) := by
  induction fuel with
  | zero => intro l _; cases l <;> rfl
  | succ fuel ih =>
    intro l hpw
    cases l with
    | nil => rfl
    | cons a rest =>
      simp only [pairwiseNoOverlap, List.pairwise_cons] at hpw
      simp only [onePassAux, resolveAgainst_of_no rest a hpw.1, ih rest hpw.2]
      rfl

theorem onePass_core (l : List DiagramShape) :
    ((onePass l).1).map core = l.map core :=
  onePassAux_core l.length l

theorem onePass_flag_false (l : List DiagramShape)
    (h : (onePass l).2 = false) :
    (onePass l).1 = l ∧ pairwiseNoOverlap l :=
  onePassAux_flag_false l.length l (Nat.le_refl _) h

theorem onePass_of_pairwise (l : List DiagramShape)
    (h : pairwiseNoOverlap l) : onePass l = (l, false) :=
  onePassAux_of_pairwise l.length l h

theorem fixOverlapsLoop_core (fuel : Nat) :
    ∀ l : List DiagramShape,
      ((fixOverlapsLoop fuel l).1).map core = l.map core := by
  induction fuel with
  | zero => intro l; rfl
  | succ fuel ih =>
    intro l
    cases h : (onePass l).2 with
    | true =>
      simp only [fixOverlapsLoop, h, if_true]
      rw [ih (onePass l).1, onePass_core]
    | false =>
      simp only [fixOverlapsLoop, h, if_false]
      exact onePass_core l

theorem fixOverlapsLoop_flag_false (fuel : Nat) :
    ∀ l : List DiagramShape, (fixOverlapsLoop fuel l).2 = false →
      pairwiseNoOverlap (fixOverlapsLoop fuel l).1 := by
  induction fuel with
  | zero => intro l h; simp [fixOverlapsLoop] at h
  | succ fuel ih =>
    intro l h
    cases hp : (onePass l).2 with
    | true =>
      simp only [fixOverlapsLoop, hp, if_true] at h ⊢
      exact ih _ h
    | false =>
      simp only [fixOverlapsLoop, hp, if_false]
      obtain ⟨heq, hpw⟩ := onePass_flag_false l hp
      rw [heq]
      exact hpw

theorem fixOverlapsLoop_of_pairwise (fuel : Nat) (l : List DiagramShape)
    (h : pairwiseNoOverlap l) : fixOverlapsLoop (fuel + 1) l = (l, false) := by
  simp [fixOverlapsLoop, onePass_of_pairwise l h]

/-! ### Sizing, lookup, magnet and congestion lemmas -/

theorem sizeShape_width_le (s : DiagramShape) : s.width ≤ (sizeShape s).width :=
  le_max_left _ _

theorem sizeShape_height_le (s : DiagramShape) : s.height ≤ (sizeShape s).height :=
  le_max_left _ _

theorem sizeShape_eq_self (s : DiagramShape)
    (hw : (calculateShapeSize s.text (s.type.getD "rectangle")).1 ≤ s.width)
    (hh : (calculateShapeSize s.text (s.type.getD "rectangle")).2 ≤ s.height) :
    sizeShape s = s := by
  simp only [sizeShape, max_eq_left hw, max_eq_left hh]

theorem shapeById_foldl (id : String) (l : List DiagramShape) :
    ∀ acc : Option DiagramShape,
      (l.foldl (fun acc s => if s.id = id then some s else acc) acc).isSome =
        true ↔ (∃ s ∈ l, s.id = id) ∨ acc.isSome = true := by
  induction l with
  | nil => simp
  | cons b l ih =>
    intro acc
    by_cases hb : b.id = id
    · simp only [List.foldl_cons, if_pos hb, ih]
      constructor
      · intro h
        rcases h with ⟨s, hs, hid⟩ | _
        · exact Or.inl ⟨s, List.mem_cons_of_mem b hs, hid⟩
        · exact Or.inl ⟨b, List.mem_cons_self b l, hb⟩
      · intro _
        exact Or.inr (by simp)
    · simp only [List.foldl_cons, if_neg hb, ih]
      constructor
      · intro h
        rcases h with ⟨s, hs, hid⟩ | h
        · exact Or.inl ⟨s, List.mem_cons_of_mem b hs, hid⟩
        · exact Or.inr h
      · intro h
        rcases h with ⟨s, hs, hid⟩ | h
        · rcases List.mem_cons.mp hs with rfl | hs
          · exact absurd hid hb
          · exact Or.inl ⟨s, hs, hid⟩
        · exact Or.inr h

theorem shapeById_isSome_iff (l : List DiagramShape) (id : String) :
    (shapeById l id).isSome = true ↔ ∃ s ∈ l, s.id = id := by
  simpa using shapeById_foldl id l none

theorem chooseMagnet_provided (m : Option String) (i : String)
    (h : magnetProvided m = true) : some (chooseMagnet m i) = m := by
  cases m with
  | none => simp [magnetProvided] at h
  | some v =>
    simp only [magnetProvided] at h
    simp [chooseMagnet, h]

theorem chooseMagnet_not_provided (m : Option String) (i : String)
    (h : magnetProvided m = false) : chooseMagnet m i = i := by
  cases m with
  | none => rfl
  | some v =>
    simp only [magnetProvided] at h
    simp [chooseMagnet, h]

theorem idealMagnets_valid (fs ts : DiagramShape) :
    validMagnet (some (idealMagnets fs ts).1) ∧
      validMagnet (some (idealMagnets fs ts).2) := by
  simp only [idealMagnets]
  split_ifs <;> simp [validMagnet]

theorem assignMagnets_of_resolve (shapes : List DiagramShape)
    (c : DiagramConnection) (fs ts : DiagramShape)
    (hf : shapeById shapes c.fromId = some fs)
    (ht : shapeById shapes c.toId = some ts) :
    assignMagnets shapes c =
      { c with
        fromMagnet := some (chooseMagnet c.fromMagnet (idealMagnets fs ts).1),
        toMagnet := some (chooseMagnet c.toMagnet (idealMagnets fs ts).2) } := by
  simp [assignMagnets, hf, ht]

theorem growSide_width_le (t : Nat) (side : String) (s : DiagramShape) :
    s.width ≤ (growSide t side s).width := by
  simp only [growSide]
  split_ifs <;> simp [le_max_left]

theorem growSide_height_le (t : Nat) (side : String) (s : DiagramShape) :
    s.height ≤ (growSide t side s).height := by
  simp only [growSide]
  split_ifs <;> simp [le_max_left]

theorem growSide_id (t : Nat) (side : String) (s : DiagramShape) :
    (growSide t side s).id = s.id := by
  simp only [growSide]
  split_ifs <;> rfl

theorem growSide_x (t : Nat) (side : String) (s : DiagramShape) :
    (growSide t side s).x = s.x := by
  simp only [growSide]
  split_ifs <;> rfl

theorem growSide_y (t : Nat) (side : String) (s : DiagramShape) :
    (growSide t side s).y = s.y := by
  simp only [growSide]
  split_ifs <;> rfl

theorem growSide_of_le (t : Nat) (side : String) (s : DiagramShape)
    (h : t ≤ 2) : growSide t side s = s := by
  simp [growSide, Nat.not_lt.mpr h]

theorem growShape_width_le (shapes : List DiagramShape)
    (conns : List DiagramConnection) (s : DiagramShape) :
    s.width ≤ (growShape shapes conns s).width := by
  simp only [growShape]
  calc s.width
      ≤ (growSide (sideLoad shapes conns s.id "TOP") "TOP" s).width :=
        growSide_width_le _ _ _
    _ ≤ _ := growSide_width_le _ _ _
    _ ≤ _ := growSide_width_le _ _ _
    _ ≤ _ := growSide_width_le _ _ _

theorem growShape_height_le (shapes : List DiagramShape)
    (conns : List DiagramConnection) (s : DiagramShape) :
    s.height ≤ (growShape shapes conns s).height := by
  simp only [growShape]
  calc s.height
      ≤ (growSide (sideLoad shapes conns s.id "TOP") "TOP" s).height :=
        growSide_height_le _ _ _
    _ ≤ _ := growSide_height_le _ _ _
    _ ≤ _ := growSide_height_le _ _ _
    _ ≤ _ := growSide_height_le _ _ _

theorem growShape_of_low (shapes : List DiagramShape)
    (conns : List DiagramConnection) (s : DiagramShape)
    (h : ∀ side ∈ ["TOP", "BOTTOM", "LEFT", "RIGHT"],
      sideLoad shapes conns s.id side ≤ 2) :
    growShape shapes conns s = s := by
  have h1 := growSide_of_le _ "TOP" s (h "TOP" (by simp))
  simp only [growShape, h1]
  have h2 := growSide_of_le _ "BOTTOM" s (h "BOTTOM" (by simp))
  rw [h2]
  have h3 := growSide_of_le _ "LEFT" s (h "LEFT" (by simp))
  rw [h3]
  exact growSide_of_le _ "RIGHT" s (h "RIGHT" (by simp))

/-! ### Section-bounds lemmas -/

theorem foldl_min_le_init (f : DiagramShape → ℚ) (l : List DiagramShape) :
    ∀ init : ℚ, l.foldl (fun m t => min m (f t)) init ≤ init := by
  induction l with
  | nil => intro init; simp
  | cons b l ih =>
    intro init
    simp only [List.foldl_cons]
    exact le_trans (ih (min init (f b))) (min_le_left _ _)

theorem foldl_min_le_mem (f : DiagramShape → ℚ) (l : List DiagramShape) :
    ∀ init : ℚ, ∀ t ∈ l, l.foldl (fun m s => min m (f s)) init ≤ f t := by
  induction l with
  | nil => intro _ t ht; simp at ht
  | cons b l ih =>
    intro init t ht
    rcases List.mem_cons.mp ht with rfl | ht
    · simp only [List.foldl_cons]
      exact le_trans (foldl_min_le_init f l _) (min_le_right _ _)
    · exact ih (min init (f b)) t ht

theorem le_foldl_max_init (f : DiagramShape → ℚ) (l : List DiagramShape) :
    ∀ init : ℚ, init ≤ l.foldl (fun m t => max m (f t)) init := by
  induction l with
  | nil => intro init; simp
  | cons b l ih =>
    intro init
    simp only [List.foldl_cons]
    exact le_trans (le_max_left _ _) (ih (max init (f b)))

theorem le_foldl_max_mem (f : DiagramShape → ℚ) (l : List DiagramShape) :
    ∀ init : ℚ, ∀ t ∈ l, f t ≤ l.foldl (fun m s => max m (f s)) init := by
  induction l with
  | nil => intro _ t ht; simp at ht
  | cons b l ih =>
    intro init t ht
    rcases List.mem_cons.mp ht with rfl | ht
    · simp only [List.foldl_cons]
      exact le_trans (le_max_right _ _) (le_foldl_max_init f l _)
    · exact ih (max init (f b)) t ht

theorem computeSection_encloses (name : String) (shapes : List DiagramShape)
    (sec : DiagramSection) (s : DiagramShape)
    (hsec : sec ∈ computeSection name shapes) (hs : s ∈ shapes) :
    sec.x + PADDING ≤ s.x ∧ s.x + s.width + PADDING ≤ sec.x + sec.width ∧
      sec.y + PADDING ≤ s.y ∧ s.y + s.height + PADDING ≤ sec.y + sec.height := by
  cases shapes with
  | nil => simp [computeSection] at hsec
  | cons s0 rest =>
    simp only [computeSection, List.mem_singleton] at hsec
    subst hsec
    have hminx : rest.foldl (fun m t => min m t.x) s0.x ≤ s.x := by
      rcases List.mem_cons.mp hs with rfl | hmem
      · exact foldl_min_le_init (fun t => t.x) rest s.x
      · exact foldl_min_le_mem (fun t => t.x) rest s0.x s hmem
    have hminy : rest.foldl (fun m t => min m t.y) s0.y ≤ s.y := by
      rcases List.mem_cons.mp hs with rfl | hmem
      · exact foldl_min_le_init (fun t => t.y) rest s.y
      · exact foldl_min_le_mem (fun t => t.y) rest s0.y s hmem
    have hmaxx : s.x + s.width ≤
        rest.foldl (fun m t => max m (t.x + t.width)) (s0.x + s0.width) := by
      rcases List.mem_cons.mp hs with rfl | hmem
      · exact le_foldl_max_init (fun t => t.x + t.width) rest (s.x + s.width)
      · exact le_foldl_max_mem (fun t => t.x + t.width) rest _ s hmem
    have hmaxy : s.y + s.height ≤
        rest.foldl (fun m t => max m (t.y + t.height)) (s0.y + s0.height) := by
      rcases List.mem_cons.mp hs with rfl | hmem
      · exact le_foldl_max_init (fun t => t.y + t.height) rest (s.y + s.height)
      · exact le_foldl_max_mem (fun t => t.y + t.height) rest _ s hmem
    have hw := le_max_left
      ((rest.foldl (fun m t => max m (t.x + t.width)) (s0.x + s0.width) -
        rest.foldl (fun m t => min m t.x) s0.x) + PADDING * 2) (400 : ℚ)
    have hh := le_max_left
      ((rest.foldl (fun m t => max m (t.y + t.height)) (s0.y + s0.height) -
        rest.foldl (fun m t => min m t.y) s0.y) + PADDING * 2) (300 : ℚ)
    refine ⟨by simp only []; linarith, by simp only []; linarith,
      by simp only []; linarith, by simp only []; linarith⟩

theorem computeSection_minsize (name : String) (shapes : List DiagramShape)
    (sec : DiagramSection) (hsec : sec ∈ computeSection name shapes) :
    (400 : ℚ) ≤ sec.width ∧ (300 : ℚ) ≤ sec.height := by
  cases shapes with
  | nil => simp [computeSection] at hsec
  | cons s0 rest =>
    simp only [computeSection, List.mem_singleton] at hsec
    subst hsec
    exact ⟨le_max_right _ _, le_max_right _ _⟩

theorem computeSection_name (name : String) (shapes : List DiagramShape)
    (sec : DiagramSection) (hsec : sec ∈ computeSection name shapes) :
    sec.name = name := by
  cases shapes with
  | nil => simp [computeSection] at hsec
  | cons s0 rest =>
    simp only [computeSection, List.mem_singleton] at hsec
    subst hsec
    rfl

theorem computeSection_length (name : String) (shapes : List DiagramShape)
    (h : shapes ≠ []) : (computeSection name shapes).length = 1 := by
  cases shapes with
  | nil => exact absurd rfl h
  | cons s0 rest => rfl

/-! ### Pipeline bridge lemmas -/

theorem vfd_shapes (d : Diagram) :
    (validateAndFixDiagram d).shapes =
      (layoutShapes d).map
        (growShape (layoutShapes d) (assignedConnections d)) := rfl

theorem vfd_connections (d : Diagram) :
    (validateAndFixDiagram d).connections = assignedConnections d := rfl

theorem vfd_sections (d : Diagram) :
    (validateAndFixDiagram d).sections =
      computeSection (savedSectionName d.sections)
        (validateAndFixDiagram d).shapes := rfl

theorem layoutShapes_map_core (d : Diagram) :
    (layoutShapes d).map core = (d.shapes.map sizeShape).map core :=
  fixOverlapsLoop_core 100 _

theorem layoutShapes_length (d : Diagram) :
    (layoutShapes d).length = d.shapes.length := by
  have h := congrArg List.length (layoutShapes_map_core d)
  simpa using h

theorem layoutShapes_ids (d : Diagram) :
    (layoutShapes d).map (fun s => s.id) = d.shapes.map (fun s => s.id) := by
  have h := congrArg (List.map Prod.fst) (layoutShapes_map_core d)
  simp only [List.map_map] at h
  exact h

theorem resolve_transport (d : Diagram) (id : String)
    (h : ∃ s ∈ d.shapes, s.id = id) :
    (shapeById (layoutShapes d) id).isSome = true := by
  rw [shapeById_isSome_iff]
  have hmem : id ∈ d.shapes.map (fun s => s.id) :=
    List.mem_map.mpr (by obtain ⟨s, hs, hid⟩ := h; exact ⟨s, hs, hid⟩)
  rw [← layoutShapes_ids] at hmem
  obtain ⟨s, hs, hid⟩ := List.mem_map.mp hmem
  exact ⟨s, hs, hid⟩

theorem layoutShapes_getElem_core (d : Diagram) (i : Nat) :
    ((layoutShapes d)[i]?).map core =
      ((d.shapes.map sizeShape)[i]?).map core := by
  have h := congrArg (fun l => l[i]?) (layoutShapes_map_core d)
  simpa [List.getElem?_map] using h

theorem vfd_shapes_length (d : Diagram) :
    (validateAndFixDiagram d).shapes.length = d.shapes.length := by
  rw [vfd_shapes, List.length_map, layoutShapes_length]

theorem chooseMagnet_domain (m : Option String) (i : String)
    (hd : inputMagnetDomain m) (hi : validMagnet (some i)) :
    validMagnet (some (chooseMagnet m i)) := by
  rcases hd with rfl | rfl | hv
  · rwa [chooseMagnet_not_provided none i rfl]
  · rwa [chooseMagnet_not_provided (some "AUTO") i (by decide)]
  · rcases hv with rfl | rfl | rfl | rfl <;> simp [chooseMagnet, validMagnet]

/-! ### Claim theorems -/

/-- C1 counterexample: in `exCongest` the two shapes start out separated,
but the congestion pass (three explicit-`TOP` self-connections on the
first shape) widens the first shape after the overlap-resolution loop has
already run, so the repaired output contains an overlapping pair under the
gap-60 predicate — refuting the unconditional no-overlap claim. -/
theorem no_overlap_counterexample :
    ¬ pairwiseNoOverlap (validateAndFixDiagram exCongest).shapes := by
  decide

/-- C1 (amended): if the overlap-resolution loop exits because a full
pass found no overlapping pair (rather than by hitting the 100-iteration
cap), and the congestion pass grows no shape (no side of any shape
carries more than two connection endpoints), then every pair of distinct
shapes in the output of `validateAndFixDiagram` is non-overlapping under
`shapesOverlap` with the configured minimum gap of 60. -/
theorem no_overlap_amended (d : Diagram)
    (hclean : layoutResidual d = false)
    (hload : ∀ s ∈ layoutShapes d, ∀ side ∈ ["TOP", "BOTTOM", "LEFT", "RIGHT"],
      sideLoad (layoutShapes d) (assignedConnections d) s.id side ≤ 2) :
    pairwiseNoOverlap (validateAndFixDiagram d).shapes := by
  have hpw : pairwiseNoOverlap (layoutShapes d) :=
    fixOverlapsLoop_flag_false 100 _ hclean
  rw [vfd_shapes]
  have hid : ∀ s ∈ layoutShapes d,
      growShape (layoutShapes d) (assignedConnections d) s = id s :=
    fun s hs => growShape_of_low _ _ s (hload s hs)
  rw [List.map_congr_left hid, List.map_id]
  exact hpw

/-- C1 witness: the two-shape diagram `exTwo` resolves cleanly and has no
connections, so the amended no-overlap theorem applies. -/
theorem no_overlap_amended_witness :
    layoutResidual exTwo = false ∧
      pairwiseNoOverlap (validateAndFixDiagram exTwo).shapes :=
  ⟨by decide, no_overlap_amended exTwo (by decide) (by decide)⟩

/-- C2 (confirmed): for every input diagram and shape index, the output
shape of `validateAndFixDiagram` at the same index has width ≥ the input
width and height ≥ the input height — the sizing pass and the congestion
pass only grow dimensions, and the resolver only moves shapes. -/
theorem growth_only_sizing (d : Diagram) (i : Nat) (s₀ : DiagramShape)
    (h : d.shapes[i]? = some s₀) :
    ∃ s₁, (validateAndFixDiagram d).shapes[i]? = some s₁ ∧
      s₀.width ≤ s₁.width ∧ s₀.height ≤ s₁.height := by
  have hcore := layoutShapes_getElem_core d i
  rw [List.getElem?_map, h, Option.map_some', Option.map_some'] at hcore
  obtain ⟨t, ht, htcore⟩ := Option.map_eq_some'.mp hcore
  refine ⟨growShape (layoutShapes d) (assignedConnections d) t, ?_, ?_, ?_⟩
  · rw [vfd_shapes, List.getElem?_map, ht, Option.map_some']
  · have hw : t.width = (sizeShape s₀).width :=
      congrArg (fun p => p.2.1) htcore
    calc s₀.width ≤ (sizeShape s₀).width := sizeShape_width_le s₀
      _ = t.width := hw.symm
      _ ≤ _ := growShape_width_le _ _ t
  · have hh : t.height = (sizeShape s₀).height :=
      congrArg (fun p => p.2.2.1) htcore
    calc s₀.height ≤ (sizeShape s₀).height := sizeShape_height_le s₀
      _ = t.height := hh.symm
      _ ≤ _ := growShape_height_le _ _ t

/-- C2 witness: instantiation at the concrete diagram `exValidOne`. -/
theorem growth_only_sizing_witness :
    ∃ s₁, (validateAndFixDiagram exValidOne).shapes[0]? = some s₁ ∧
      shapeA.width ≤ s₁.width ∧ shapeA.height ≤ s₁.height :=
  growth_only_sizing exValidOne 0 shapeA rfl

/-- C3 (confirmed): for every connection whose `from` and `to` ids both
resolve to shapes of the diagram and whose input magnets lie in the
data-model domain (absent, `AUTO`, or a concrete side), the output
connection's magnets are each one of `TOP`, `BOTTOM`, `LEFT`, `RIGHT` —
never `AUTO`, never empty. -/
theorem magnet_totality (d : Diagram) (k : Nat) (c : DiagramConnection)
    (hk : d.connections[k]? = some c)
    (hfrom : ∃ s ∈ d.shapes, s.id = c.fromId)
    (hto : ∃ s ∈ d.shapes, s.id = c.toId)
    (hdf : inputMagnetDomain c.fromMagnet)
    (hdt : inputMagnetDomain c.toMagnet) :
    ∃ c', (validateAndFixDiagram d).connections[k]? = some c' ∧
      validMagnet c'.fromMagnet ∧ validMagnet c'.toMagnet := by
  obtain ⟨fs, hfs⟩ :=
    Option.isSome_iff_exists.mp (resolve_transport d c.fromId hfrom)
  obtain ⟨ts, hts⟩ :=
    Option.isSome_iff_exists.mp (resolve_transport d c.toId hto)
  refine ⟨assignMagnets (layoutShapes d) c, ?_, ?_, ?_⟩
  · rw [vfd_connections]
    simp only [assignedConnections, List.getElem?_map, hk, Option.map_some']
  · rw [assignMagnets_of_resolve _ c fs ts hfs hts]
    exact chooseMagnet_domain c.fromMagnet _ hdf (idealMagnets_valid fs ts).1
  · rw [assignMagnets_of_resolve _ c fs ts hfs hts]
    exact chooseMagnet_domain c.toMagnet _ hdt (idealMagnets_valid fs ts).2

/-- C3 witness: the auto connection of `exVert` resolves and gets
concrete magnets. -/
theorem magnet_totality_witness :
    ∃ c', (validateAndFixDiagram exVert).connections[0]? = some c' ∧
      validMagnet c'.fromMagnet ∧ validMagnet c'.toMagnet :=
  magnet_totality exVert 0 { fromId := "a", toId := "b" } rfl
    ⟨shapeA, by decide⟩ ⟨shapeB200, by decide⟩ (by decide) (by decide)

/-- C4 (confirmed): for every connection whose endpoints both resolve, an
explicitly supplied concrete magnet is preserved verbatim at its
endpoint, and an unspecified (absent/`AUTO`/empty) endpoint — and only
such an endpoint — is computed by the ideal-magnet heuristic. -/
theorem explicit_magnet_preserved (d : Diagram) (k : Nat)
    (c : DiagramConnection) (fs ts : DiagramShape)
    (hk : d.connections[k]? = some c)
    (hfs : shapeById (layoutShapes d) c.fromId = some fs)
    (hts : shapeById (layoutShapes d) c.toId = some ts) :
    ∃ c', (validateAndFixDiagram d).connections[k]? = some c' ∧
      (magnetProvided c.fromMagnet = true → c'.fromMagnet = c.fromMagnet) ∧
      (magnetProvided c.toMagnet = true → c'.toMagnet = c.toMagnet) ∧
      (magnetProvided c.fromMagnet = false →
        c'.fromMagnet = some (idealMagnets fs ts).1) ∧
      (magnetProvided c.toMagnet = false →
        c'.toMagnet = some (idealMagnets fs ts).2) := by
  refine ⟨assignMagnets (layoutShapes d) c, ?_, ?_, ?_, ?_, ?_⟩
  · rw [vfd_connections]
    simp only [assignedConnections, List.getElem?_map, hk, Option.map_some']
  · intro hp
    rw [assignMagnets_of_resolve _ c fs ts hfs hts]
    exact chooseMagnet_provided c.fromMagnet _ hp
  · intro hp
    rw [assignMagnets_of_resolve _ c fs ts hfs hts]
    exact chooseMagnet_provided c.toMagnet _ hp
  · intro hp
    rw [assignMagnets_of_resolve _ c fs ts hfs hts]
    simp only [chooseMagnet_not_provided c.fromMagnet _ hp]
  · intro hp
    rw [assignMagnets_of_resolve _ c fs ts hfs hts]
    simp only [chooseMagnet_not_provided c.toMagnet _ hp]

/-- C4 witness: the explicit `TOP`/`TOP` self-connection of `exCongest`
is preserved verbatim. -/
theorem explicit_magnet_preserved_witness :
    ∃ c', (validateAndFixDiagram exCongest).connections[0]? = some c' ∧
      (magnetProvided connSelfTop.fromMagnet = true →
        c'.fromMagnet = connSelfTop.fromMagnet) ∧
      (magnetProvided connSelfTop.toMagnet = true →
        c'.toMagnet = connSelfTop.toMagnet) ∧
      (magnetProvided connSelfTop.fromMagnet = false →
        c'.fromMagnet = some (idealMagnets shapeA shapeA).1) ∧
      (magnetProvided connSelfTop.toMagnet = false →
        c'.toMagnet = some (idealMagnets shapeA shapeA).2) :=
  explicit_magnet_preserved exCongest 0 connSelfTop shapeA shapeA rfl
    (by decide) (by decide)

/-- C5 (confirmed): for a resolvable connection with absent or `AUTO`
input magnets, the output magnets follow the relative position of the two
shapes' post-resolution centers: primarily-vertical displacement gives
`BOTTOM`→`TOP` (downward) or `TOP`→`BOTTOM` (upward), otherwise
`RIGHT`→`LEFT` (rightward) or `LEFT`→`RIGHT` (leftward); in particular a
shape directly above another connects `BOTTOM`→`TOP`. -/
theorem magnet_heuristic (d : Diagram) (k : Nat) (c : DiagramConnection)
    (fs ts : DiagramShape)
    (hk : d.connections[k]? = some c)
    (hfs : shapeById (layoutShapes d) c.fromId = some fs)
    (hts : shapeById (layoutShapes d) c.toId = some ts)
    (hdf : c.fromMagnet = none ∨ c.fromMagnet = some "AUTO")
    (hdt : c.toMagnet = none ∨ c.toMagnet = some "AUTO") :
    ∃ c', (validateAndFixDiagram d).connections[k]? = some c' ∧
      (c'.fromMagnet, c'.toMagnet) =
        (if |(ts.y + ts.height / 2) - (fs.y + fs.height / 2)| >
            |(ts.x + ts.width / 2) - (fs.x + fs.width / 2)| then
          if (ts.y + ts.height / 2) - (fs.y + fs.height / 2) > 0 then
            (some "BOTTOM", some "TOP")
          else (some "TOP", some "BOTTOM")
        else
          if (ts.x + ts.width / 2) - (fs.x + fs.width / 2) > 0 then
            (some "RIGHT", some "LEFT")
          else (some "LEFT", some "RIGHT")) := by
  have hpf : magnetProvided c.fromMagnet = false := by
    rcases hdf with h | h <;> rw [h] <;> rfl
  have hpt : magnetProvided c.toMagnet = false := by
    rcases hdt with h | h <;> rw [h] <;> rfl
  refine ⟨assignMagnets (layoutShapes d) c, ?_, ?_⟩
  · rw [vfd_connections]
    simp only [assignedConnections, List.getElem?_map, hk, Option.map_some']
  · rw [assignMagnets_of_resolve _ c fs ts hfs hts]
    simp only [chooseMagnet_not_provided c.fromMagnet _ hpf,
      chooseMagnet_not_provided c.toMagnet _ hpt, idealMagnets]
    split_ifs <;> rfl

/-- C5 witness: in `exVert` shape `a` sits directly above shape `b`, and
the connection gets `BOTTOM`→`TOP`. -/
theorem magnet_heuristic_witness :
    ∃ c', (validateAndFixDiagram exVert).connections[0]? = some c' ∧
      (c'.fromMagnet, c'.toMagnet) =
        (if |(shapeB200.y + shapeB200.height / 2) - (shapeA.y + shapeA.height / 2)| >
            |(shapeB200.x + shapeB200.width / 2) - (shapeA.x + shapeA.width / 2)| then
          if (shapeB200.y + shapeB200.height / 2) - (shapeA.y + shapeA.height / 2) > 0 then
            (some "BOTTOM", some "TOP")
          else (some "TOP", some "BOTTOM")
        else
          if (shapeB200.x + shapeB200.width / 2) - (shapeA.x + shapeA.width / 2) > 0 then
            (some "RIGHT", some "LEFT")
          else (some "LEFT", some "RIGHT")) :=
  magnet_heuristic exVert 0 { fromId := "a", toId := "b" } shapeA shapeB200
    rfl (by decide) (by decide) (Or.inl rfl) (Or.inl rfl)

/-- C6 (confirmed): an empty shape list yields no section; a non-empty
shape list yields exactly one section — regardless of how many sections
the input supplied — whose rectangle encloses every output shape with a
margin of at least `PADDING = 100` on all four sides, and whose size is
at least 400 × 300. -/
theorem section_containment (d : Diagram) :
    (d.shapes = [] → (validateAndFixDiagram d).sections = []) ∧
    (d.shapes ≠ [] →
      (validateAndFixDiagram d).sections.length = 1 ∧
      ∀ sec ∈ (validateAndFixDiagram d).sections,
        (400 : ℚ) ≤ sec.width ∧ (300 : ℚ) ≤ sec.height ∧
        ∀ s ∈ (validateAndFixDiagram d).shapes,
          sec.x + PADDING ≤ s.x ∧
          s.x + s.width + PADDING ≤ sec.x + sec.width ∧
          sec.y + PADDING ≤ s.y ∧
          s.y + s.height + PADDING ≤ sec.y + sec.height) := by
  constructor
  · intro h
    have hlen : (validateAndFixDiagram d).shapes.length = 0 := by
      rw [vfd_shapes_length, h]
      rfl
    have hnil : (validateAndFixDiagram d).shapes = [] :=
      List.length_eq_zero.mp hlen
    rw [vfd_sections, hnil]
    rfl
  · intro h
    have hlen : (validateAndFixDiagram d).shapes ≠ [] := by
      intro hcon
      apply h
      have hl := vfd_shapes_length d
      rw [hcon] at hl
      exact List.length_eq_zero.mp hl.symm
    refine ⟨by rw [vfd_sections]; exact computeSection_length _ _ hlen, ?_⟩
    intro sec hsec
    rw [vfd_sections] at hsec
    obtain ⟨h4, h3⟩ := computeSection_minsize _ _ sec hsec
    exact ⟨h4, h3, fun s hs => computeSection_encloses _ _ sec s hsec hs⟩

/-- C6 witness: the single-shape diagram gets exactly one section. -/
theorem section_containment_witness :
    exValidOne.shapes ≠ [] ∧
      (validateAndFixDiagram exValidOne).sections.length = 1 :=
  ⟨by decide, ((section_containment exValidOne).2 (by decide)).1⟩

/-- C7 counterexample: `exSelfLoad` is already valid — its single shape
exceeds the policy minimum, there is no overlapping pair, and every
connection carries concrete non-auto magnets — yet `validateAndFixDiagram`
widens the shape from 140 to 260 because three connections load its `TOP`
side, refuting the unconditional idempotence claim. -/
theorem idempotence_counterexample :
    pairwiseNoOverlap exSelfLoad.shapes ∧
    (∀ s ∈ exSelfLoad.shapes,
      (calculateShapeSize s.text (s.type.getD "rectangle")).1 ≤ s.width ∧
      (calculateShapeSize s.text (s.type.getD "rectangle")).2 ≤ s.height) ∧
    (∀ c ∈ exSelfLoad.connections,
      magnetProvided c.fromMagnet = true ∧ magnetProvided c.toMagnet = true) ∧
    (validateAndFixDiagram exSelfLoad).shapes.map (fun s => s.width) ≠
      exSelfLoad.shapes.map (fun s => s.width) := by
  decide

/-- C7 (amended): repairing an already-valid diagram — no overlapping
pair under the gap-60 predicate, every shape at least its policy-computed
minimum size, every connection carrying concrete non-auto magnets, and
additionally no side of any shape loaded with more than two connection
endpoints — changes no shape (position or size) and no connection
(magnets); only the section list is rebuilt. -/
theorem idempotence_amended (d : Diagram)
    (hno : pairwiseNoOverlap d.shapes)
    (hsized : ∀ s ∈ d.shapes,
      (calculateShapeSize s.text (s.type.getD "rectangle")).1 ≤ s.width ∧
      (calculateShapeSize s.text (s.type.getD "rectangle")).2 ≤ s.height)
    (hmag : ∀ c ∈ d.connections,
      magnetProvided c.fromMagnet = true ∧ magnetProvided c.toMagnet = true)
    (hload : ∀ s ∈ d.shapes, ∀ side ∈ ["TOP", "BOTTOM", "LEFT", "RIGHT"],
      sideLoad d.shapes d.connections s.id side ≤ 2) :
    (validateAndFixDiagram d).shapes = d.shapes ∧
    (validateAndFixDiagram d).connections = d.connections := by
  have hsz : d.shapes.map sizeShape = d.shapes := by
    have hcongr : ∀ s ∈ d.shapes, sizeShape s = id s := fun s hs =>
      sizeShape_eq_self s (hsized s hs).1 (hsized s hs).2
    rw [List.map_congr_left hcongr, List.map_id]
  have hlayout : layoutShapes d = d.shapes := by
    have h100 : (99 : Nat) + 1 = 100 := rfl
    rw [layoutShapes, hsz, ← h100, fixOverlapsLoop_of_pairwise 99 _ hno]
  have hconn : assignedConnections d = d.connections := by
    rw [assignedConnections, hlayout]
    have hcongr : ∀ c ∈ d.connections, assignMagnets d.shapes c = id c := by
      intro c hc
      cases hf : shapeById d.shapes c.fromId with
      | none => simp [assignMagnets, hf]
      | some fs =>
        cases ht : shapeById d.shapes c.toId with
        | none => simp [assignMagnets, hf, ht]
        | some ts =>
          rw [assignMagnets_of_resolve _ _ fs ts hf ht]
          obtain ⟨hpf, hpt⟩ := hmag c hc
          have h1 := chooseMagnet_provided c.fromMagnet (idealMagnets fs ts).1 hpf
          have h2 := chooseMagnet_provided c.toMagnet (idealMagnets fs ts).2 hpt
          cases c
          simp only [id_eq]
          simp_all
    rw [List.map_congr_left hcongr, List.map_id]
  constructor
  · rw [vfd_shapes, hlayout, hconn]
    have hcongr : ∀ s ∈ d.shapes,
        growShape d.shapes d.connections s = id s := fun s hs =>
      growShape_of_low _ _ s (hload s hs)
    rw [List.map_congr_left hcongr, List.map_id]
  · rw [vfd_connections, hconn]

/-- C7 witness: a valid single-shape diagram with no connections passes
through unchanged. -/
theorem idempotence_amended_witness :
    (validateAndFixDiagram exValidOne).shapes = exValidOne.shapes ∧
      (validateAndFixDiagram exValidOne).connections =
        exValidOne.connections :=
  idempotence_amended exValidOne (by decide) (by decide) (by decide)
    (by decide)

/-- C8 counterexample: repairing the two identical 140 × 50 shapes of
`exTwo` pushes them apart vertically (the cheaper axis), leaving center
separations of 0 on x and 130 on y — so the claimed separation of at
least 200 (= 140 + 60) on some axis fails. -/
theorem scenario_separation_counterexample :
    (validateAndFixDiagram exTwo).shapes.length = 2 ∧
    ¬ (validateAndFixDiagram exTwo).shapes.Pairwise
        (fun a b => centersSeparatedBy a b 200) := by
  constructor
  · decide
  · decide

/-- C8 (amended): after repairing the two identical
`{x:0, y:0, w:140, h:50}` shapes with gap 60, the centers are separated
by at least 110 (= height 50 + gap 60, the separation the push actually
enforces on the chosen axis) on at least one axis. -/
theorem scenario_separation_amended :
    (validateAndFixDiagram exTwo).shapes.Pairwise
      (fun a b => centersSeparatedBy a b 110) := by
  decide

/-- C9 counterexample: the diamond's minimum width floor (140) equals the
rectangle's, and the ellipse's minimum height floor (50) equals the
rectangle's — so it is false that both floors differ for each
non-rectangular kind. -/
theorem kind_floor_counterexample :
    (calculateShapeSize "" "diamond").1 = (calculateShapeSize "" "rectangle").1 ∧
    (calculateShapeSize "" "ellipse").2 = (calculateShapeSize "" "rectangle").2 := by
  decide

/-- C9 (amended): each non-rectangular kind differs from the rectangle in
exactly one floor: the diamond in its height floor (80 vs 50), the
ellipse in its width floor (120 vs 140); the diamond's width floor and
the ellipse's height floor coincide with the rectangle's. -/
theorem kind_floor_amended :
    (calculateShapeSize "" "diamond").2 ≠ (calculateShapeSize "" "rectangle").2 ∧
    (calculateShapeSize "" "ellipse").1 ≠ (calculateShapeSize "" "rectangle").1 ∧
    (calculateShapeSize "" "diamond").1 = (calculateShapeSize "" "rectangle").1 ∧
    (calculateShapeSize "" "ellipse").2 = (calculateShapeSize "" "rectangle").2 := by
  decide

/-- C10 (confirmed): for every diagram with at least one shape, the
single output section is named after the first input section when one
with a non-empty name is supplied, and `Diagram` otherwise. -/
theorem section_name_preserved (d : Diagram) (h : d.shapes ≠ []) :
    (validateAndFixDiagram d).sections.map (fun sec => sec.name) =
      [match d.sections.head? with
       | some s0 => if s0.name = "" then "Diagram" else s0.name
       | none => "Diagram"] := by
  have hlen : (validateAndFixDiagram d).shapes ≠ [] := by
    intro hcon
    apply h
    have hl := vfd_shapes_length d
    rw [hcon] at hl
    exact List.length_eq_zero.mp hl.symm
  rw [vfd_sections]
  cases hsh : (validateAndFixDiagram d).shapes with
  | nil => exact absurd hsh hlen
  | cons s0 rest =>
    simp only [computeSection, List.map_cons, List.map_nil]
    rfl

/-- C10 witness: the authored section name `Flow` of `exNamed` survives
into the rebuilt section. -/
theorem section_name_preserved_witness :
    (validateAndFixDiagram exNamed).sections.map (fun sec => sec.name) =
      ["Flow"] :=
  (section_name_preserved exNamed (by decide)).trans (by decide)

end CreatorMcp
